import Mathlib

set_option autoImplicit false

/-!
Shallow embedding of the `web-browser-storage` package core:
`MemoryStorage` (shared key/value table + external-change bus),
`CachedStorage` (write-coalescing cache layer) and the key pattern
matcher, translated from `src/lib/MemoryStorage.js`,
`src/lib/CachedStorage.js` and the `matchesPattern` module.
-/

namespace WebBrowserStorage

/-- The JavaScript values the storage layer manipulates in the verified
fragment: `undefined`, `null`, booleans, integers and strings. -/
inductive JSValue where
  | jsUndefined
  | null
  | bool (b : Bool)
  | num (n : Int)
  | str (s : String)
deriving DecidableEq, Repr

/-- JSON escaping of a single character (quotes and backslashes). -/
def escapeJsonChar (c : Char) : String :=
  if c = '"' then "\\\"" else if c = '\\' then "\\\\" else String.singleton c

/-- JSON escaping of a string body. -/
def jsonEscape (s : String) : String :=
  String.join (s.toList.map escapeJsonChar)

/-- Model of `JSON.stringify` on the primitive `JSValue`s.
`JSON.stringify(undefined)` yields no string (JS returns `undefined`),
modelled as `none`. -/
def jsonStringify : JSValue → Option String
  | .jsUndefined => none
  | .null => some "null"
  | .bool b => some (if b then "true" else "false")
  | .num n => some (toString n)
  | .str s => some ("\"" ++ jsonEscape s ++ "\"")

/-- Model of `JSON.parse(JSON.stringify(item))`.  On the primitive values of
`JSValue` the JSON round-trip reconstructs an equal value, so in this model it
is the identity (the `jsUndefined` case is guarded before the code applies it). -/
def jsonRoundTrip (v : JSValue) : JSValue := v

/-- A JavaScript plain object used as a key/value table: an insertion-ordered
association list with (by construction) unique keys. -/
abbrev ObjMap := List (String × JSValue)

/-- `key in obj` / `obj.hasOwnProperty(key)`. -/
def objHas (m : ObjMap) (k : String) : Bool :=
  match m with
  | [] => false
  | (k', _) :: rest => if k' = k then true else objHas rest k

/-- `obj[key]`, as an `Option` (JS yields `undefined` when absent). -/
def objGet? (m : ObjMap) (k : String) : Option JSValue :=
  match m with
  | [] => none
  | (k', v) :: rest => if k' = k then some v else objGet? rest k

/-- `obj[key]` as a `JSValue` (`undefined` when absent). -/
def objGet (m : ObjMap) (k : String) : JSValue :=
  (objGet? m k).getD .jsUndefined

/-- `obj[key] = value`: replace in place when the key exists (JS objects keep
the original insertion position), append otherwise. -/
def objSet (m : ObjMap) (k : String) (v : JSValue) : ObjMap :=
  match m with
  | [] => [(k, v)]
  | (k', v') :: rest => if k' = k then (k', v) :: rest else (k', v') :: objSet rest k v

/-- `delete obj[key]`. -/
def objDelete (m : ObjMap) (k : String) : ObjMap :=
  m.filter (fun e => e.1 != k)

/-- `Object.keys(obj)` (insertion order). -/
def objKeys (m : ObjMap) : List String :=
  m.map (·.1)

/-- An external-change listener registration: a `(storageId, listener)` pair
as appended by `MemoryStorage.onExternalChange`.  Listener functions are
modelled as opaque tokens of a type `L` whose equality models JS reference
equality of function objects. -/
structure Registration (L : Type) where
  storageId : Option String
  listener : L
deriving DecidableEq, Repr

/-- The state shared by all `MemoryStorage` facades created from one root via
`createSharedInstance`: the data table and the external-change listener
registry. -/
structure SharedStore (L : Type) where
  data : ObjMap
  listeners : List (Registration L)
deriving DecidableEq, Repr

/-- The `{ key, value, prevValue }` payload passed to external-change
listeners. -/
structure ChangeEvent where
  key : String
  value : JSValue
  prevValue : JSValue
deriving DecidableEq, Repr

namespace MemoryStorage

/-- `MemoryStorage.has` (on the shared data table). -/
def has (d : ObjMap) (key : String) : Bool :=
  objHas d key

/-- `MemoryStorage.get`: `null` for an absent key, otherwise the stored item,
JSON round-tripped unless `stringifyStoredValues === false` (or the item is
`undefined`). -/
def get (stringifyStoredValues : Option Bool) (d : ObjMap) (key : String) : JSValue :=
  if has d key = false then .null
  else
    let item := objGet d key
    if stringifyStoredValues ≠ some false then
      if item ≠ .jsUndefined then jsonRoundTrip item else item
    else item

/-- `MemoryStorage.keys`. -/
def keys (d : ObjMap) : List String :=
  objKeys d

/-- `MemoryStorage.getRecordSize`: `0` when absent; otherwise the key length,
plus the serialized value length when the value is neither `null` nor
`undefined`, all doubled (two bytes per character). -/
def getRecordSize (d : ObjMap) (key : String) : Nat :=
  if has d key = false then 0
  else
    let size := key.length
    let value := objGet d key
    let size :=
      if value ≠ .null ∧ value ≠ .jsUndefined
      then size + ((jsonStringify value).getD "").length
      else size
    size * 2

/-- `MemoryStorage.triggerExternalChangeListeners`: the list of
`(listener, event)` invocations performed for a change produced by the facade
with identity `selfId`.  No listener runs when `selfId` is `undefined`; a
registration runs only when its own `storageId` is defined and differs from
`selfId`. -/
def triggerExternalChangeListeners (L : Type) (selfId : Option String)
    (regs : List (Registration L)) (event : ChangeEvent) : List (L × ChangeEvent) :=
  match selfId with
  | none => []
  | some i =>
    (regs.filter (fun r =>
      match r.storageId with
      | none => false
      | some j => decide (j ≠ i))).map (fun r => (r.listener, event))

/-- `MemoryStorage.set`: read the previous value, store the new value, then
notify.  Returns the new shared state together with the listener invocations
that the write triggered. -/
def set (L : Type) (selfId : Option String) (stringifyStoredValues : Option Bool)
    (st : SharedStore L) (key : String) (value : JSValue) :
    SharedStore L × List (L × ChangeEvent) :=
  let prevValue := get stringifyStoredValues st.data key
  let st' : SharedStore L := { st with data := objSet st.data key value }
  (st', triggerExternalChangeListeners L selfId st'.listeners ⟨key, value, prevValue⟩)

/-- `MemoryStorage.delete`: read the previous value, remove the entry, then
notify with `value: null`. -/
def del (L : Type) (selfId : Option String) (stringifyStoredValues : Option Bool)
    (st : SharedStore L) (key : String) :
    SharedStore L × List (L × ChangeEvent) :=
  let prevValue := get stringifyStoredValues st.data key
  let st' : SharedStore L := { st with data := objDelete st.data key }
  (st', triggerExternalChangeListeners L selfId st'.listeners ⟨key, .null, prevValue⟩)

/-- `MemoryStorage.onExternalChange`: append the `(ownId, listener)` pair to
the shared registry. -/
def onExternalChange (L : Type) (selfId : Option String) (st : SharedStore L)
    (listener : L) : SharedStore L :=
  { st with listeners := st.listeners ++ [⟨selfId, listener⟩] }

/-- The unsubscribe closure returned by `onExternalChange`: it filters the
current registry, keeping the registrations whose `listener` differs from the
captured one (`_.listener !== listener`). -/
def unsubscribe (L : Type) [DecidableEq L] (st : SharedStore L) (listener : L) :
    SharedStore L :=
  { st with listeners := st.listeners.filter (fun r => r.listener != listener) }

end MemoryStorage

/-- JS `String.prototype.indexOf` for a substring: the least index at which
`sub` occurs in `s`, or `-1`. -/
def jsStrIndexOf (s sub : String) : Int :=
  match (List.range (s.length - sub.length + 1)).find?
      (fun i => decide ((s.toList.drop i).take sub.length = sub.toList)) with
  | some i => (i : Int)
  | none => -1

/-- `matchesPattern(string, pattern)`: an asterisk is allowed only as the
final character, in which case the test is `string.indexOf(stem) === 0` for
the stem before the asterisk; a misplaced asterisk throws; otherwise the test
is string equality. -/
def matchesPattern (s pat : String) : Except String Bool :=
  match pat.toList.findIdx? (fun c => c = '*') with
  | some asteriskIndex =>
    if asteriskIndex ≠ pat.length - 1 then
      .error ("A match pattern can only contain an asterisk at the end: " ++ pat)
    else
      .ok (decide (jsStrIndexOf s (String.mk (pat.toList.take asteriskIndex)) = 0))
  | none => .ok (decide (s = pat))

/-- The delay timer collaborator (`web-browser-timer`): `schedule` hands out a
fresh handle and arms it (recording when it would fire), `cancel` disarms a
handle; `time` is the current clock reading (`now()`). -/
structure TimerState where
  nextHandle : Nat
  armed : List (Nat × Nat)
  time : Nat
deriving DecidableEq, Repr

/-- `timer.schedule(callback, delay)`: returns the fresh handle and the new
timer state. -/
def TimerState.schedule (t : TimerState) (delay : Nat) : Nat × TimerState :=
  (t.nextHandle,
   { t with nextHandle := t.nextHandle + 1,
            armed := t.armed ++ [(t.nextHandle, t.time + delay)] })

/-- `timer.cancel(handle)`. -/
def TimerState.cancel (t : TimerState) (h : Nat) : TimerState :=
  { t with armed := t.armed.filter (fun e => e.1 != h) }

/-- The full state of one `CachedStorage` instance together with its
collaborators: the cache buffer, the armed-flush-timer handle, the registered
cache-inclusion patterns, the wrapped backend's shared data table, the timer
and the tab-activity flag reported by the tab-status watcher. -/
structure CachedStorage where
  cache : ObjMap
  flushTimer : Option Nat
  cachedKeys : List String
  flushDelay : Nat
  previouslyFlushedAt : Nat
  isStarted : Bool
  active : Bool
  backendData : ObjMap
  backendStringify : Option Bool
  timer : TimerState
  merge : Option (String → JSValue → JSValue → JSValue)

namespace CachedStorage

/-- The loop of `CachedStorage.shouldCacheKey`: try the registered patterns
in order, returning `true` at the first match and propagating a pattern
error (a thrown `InvalidPattern`). -/
def anyKeyMatches (key : String) : List String → Except String Bool
  | [] => .ok false
  | p :: rest =>
    match matchesPattern key p with
    | .error e => .error e
    | .ok true => .ok true
    | .ok false => anyKeyMatches key rest

/-- `CachedStorage.shouldCache`: only cache when the tab is in foreground and
the key has opted in via a registered pattern. -/
def shouldCache (cs : CachedStorage) (key : String) : Except String Bool :=
  if cs.active = false then .ok false
  else
    match anyKeyMatches key cs.cachedKeys with
    | .error e => .error e
    | .ok false => .ok false
    | .ok true => .ok true

/-- `CachedStorage.scheduleFlush`: arm the flush timer only when no timer is
currently armed. -/
def scheduleFlush (cs : CachedStorage) : CachedStorage :=
  match cs.flushTimer with
  | some _ => cs
  | none =>
    let st := cs.timer.schedule cs.flushDelay
    { cs with flushTimer := some st.1, timer := st.2 }

/-- `CachedStorage.flush`: write every buffered pair to the backend via
`storage.set` in enumeration order, clear the buffer, record the flush
timestamp, and cancel and clear the flush timer when one is armed. -/
def flush (cs : CachedStorage) : CachedStorage :=
  let backendData := cs.cache.foldl (fun d e => objSet d e.1 e.2) cs.backendData
  match cs.flushTimer with
  | some h =>
    { cs with backendData := backendData, cache := [],
              previouslyFlushedAt := cs.timer.time,
              timer := cs.timer.cancel h, flushTimer := none }
  | none =>
    { cs with backendData := backendData, cache := [],
              previouslyFlushedAt := cs.timer.time }

/-- `CachedStorage.set`: `undefined` delegates to backend `delete`; a
cache-eligible write goes into the buffer and arms the flush timer; any other
write passes through to backend `set`.  A pattern error propagates (the
state is untouched, since `shouldCache` runs before any mutation). -/
def set (cs : CachedStorage) (key : String) (value : JSValue) :
    Except String CachedStorage :=
  if value = .jsUndefined then
    .ok { cs with backendData := objDelete cs.backendData key }
  else
    match shouldCache cs key with
    | .error e => .error e
    | .ok true => .ok (scheduleFlush { cs with cache := objSet cs.cache key value })
    | .ok false => .ok { cs with backendData := objSet cs.backendData key value }

/-- `CachedStorage.delete`: drop the buffered entry if present, then
unconditionally delegate `delete` to the backend. -/
def del (cs : CachedStorage) (key : String) : CachedStorage :=
  let cs' := if objHas cs.cache key then { cs with cache := objDelete cs.cache key } else cs
  { cs' with backendData := objDelete cs'.backendData key }

/-- `CachedStorage.get`: a buffered value is returned as-is (no serialization
round-trip), otherwise delegate to the backend's `get`. -/
def get (cs : CachedStorage) (key : String) : JSValue :=
  if objHas cs.cache key then objGet cs.cache key
  else MemoryStorage.get cs.backendStringify cs.backendData key

/-- `CachedStorage.has`: buffered or present in the backend. -/
def has (cs : CachedStorage) (key : String) : Bool :=
  objHas cs.cache key || MemoryStorage.has cs.backendData key

/-- `CachedStorage.getRecordSize`: for a buffered key,
`JSON.stringify(cache[key]).length` (buffered values are never `undefined`,
since `set` diverts `undefined` to `delete`); otherwise delegate to the
backend. -/
def getRecordSize (cs : CachedStorage) (key : String) : Nat :=
  if objHas cs.cache key then ((jsonStringify (objGet cs.cache key)).getD "").length
  else MemoryStorage.getRecordSize cs.backendData key

/-- The external-change listener that `CachedStorage.start` registers
(`src/lib/CachedStorage.js` lines 143–182), handling a `{ key, value }`
change reported from another identity: ignore non-buffered keys; on an
external delete (`value === null`) discard the buffered entry; otherwise
merge-and-flush when a merge function is configured, else discard. -/
def handleExternalChange (cs : CachedStorage) (key : String) (value : JSValue) :
    CachedStorage :=
  if (objKeys cs.cache).contains key then
    if value = .null then
      { cs with cache := objDelete cs.cache key }
    else
      match cs.merge with
      | some mergeFn =>
        flush { cs with cache := objSet cs.cache key (mergeFn key (objGet cs.cache key) value) }
      | none => { cs with cache := objDelete cs.cache key }
  else cs

/-- The flush-timer callback firing: the armed handle is spent, then the
scheduled `flush` runs (which finds `flushTimer` still set and cancels the
already-spent handle — a no-op — before clearing it). -/
def fireTimer (cs : CachedStorage) : CachedStorage :=
  match cs.flushTimer with
  | some h =>
    flush { cs with timer := { cs.timer with armed := cs.timer.armed.filter (fun e => e.1 != h) } }
  | none => cs

/-- `CachedStorage.cacheKey(pattern)`: append a pattern to the registered
cache-inclusion pattern list. -/
def cacheKey (cs : CachedStorage) (p : String) : CachedStorage :=
  { cs with cachedKeys := cs.cachedKeys ++ [p] }

/-- The events a `CachedStorage` instance can undergo: its public operations,
the timer firing, a tab-activity change, the tab-inactivity signal (which
triggers `flush`), and an external-change notification from another
identity. -/
inductive Op where
  | setOp (key : String) (value : JSValue)
  | deleteOp (key : String)
  | flushOp
  | fireTimerOp
  | extChangeOp (key : String) (value : JSValue)
  | cacheKeyOp (p : String)
  | setActiveOp (b : Bool)
  | tabInactiveOp
  | startOp
  | stopOp

/-- One step of the `CachedStorage` state machine.  A `set` whose pattern scan
throws leaves the state unchanged (the exception is raised before any
mutation); the external-change handler runs only while the instance is
started (it is registered by `start` and unregistered by `stop`); the
tab-status watcher calls `flush` when the tab becomes inactive. -/
def step (cs : CachedStorage) (op : Op) : CachedStorage :=
  match op with
  | .setOp key value =>
    match set cs key value with
    | .ok cs' => cs'
    | .error _ => cs
  | .deleteOp key => del cs key
  | .flushOp => flush cs
  | .fireTimerOp => fireTimer cs
  | .extChangeOp key value =>
    if cs.isStarted then handleExternalChange cs key value else cs
  | .cacheKeyOp p => cacheKey cs p
  | .setActiveOp b => { cs with active := b }
  | .tabInactiveOp => flush { cs with active := false }
  | .startOp => if cs.isStarted then cs else { cs with isStarted := true }
  | .stopOp => if cs.isStarted then { flush cs with isStarted := false } else cs

/-- Run a list of events. -/
def run (cs : CachedStorage) (ops : List Op) : CachedStorage :=
  ops.foldl step cs

/-- The state of a freshly constructed `CachedStorage`: empty cache, no flush
timer armed, `previouslyFlushedAt = 0`, not started; parameterized by the
configuration and the initial backend/tab-activity environment. -/
def init (cachedKeys : List String) (flushDelay : Nat)
    (mergeFn : Option (String → JSValue → JSValue → JSValue))
    (backendData : ObjMap) (backendStringify : Option Bool)
    (active : Bool) : CachedStorage :=
  { cache := []
    flushTimer := none
    cachedKeys := cachedKeys
    flushDelay := flushDelay
    previouslyFlushedAt := 0
    isStarted := false
    active := active
    backendData := backendData
    backendStringify := backendStringify
    timer := { nextHandle := 0, armed := [], time := 0 }
    merge := mergeFn }

/-- Coherence of the flush-timer bookkeeping: the collaborator timer has
exactly the handles armed that `flushTimer` records — none when `flushTimer`
is clear, exactly the recorded one otherwise. -/
def timerCoherent (cs : CachedStorage) : Prop :=
  match cs.flushTimer with
  | none => cs.timer.armed = []
  | some h => ∃ t, cs.timer.armed = [(h, t)]

end CachedStorage

/-- A concrete merge function used to exercise the model, mirroring the test
suite's string-concatenating merge strategy. -/
def testMergeFn : String → JSValue → JSValue → JSValue :=
  fun _ a b =>
    match a, b with
    | .str x, .str y => .str (x ++ y)
    | _, _ => .null

/-! ## Basic lemmas about the JS object-map model -/

theorem objHas_cons (k' : String) (v' : JSValue) (rest : ObjMap) (k : String) :
    objHas ((k', v') :: rest) k = if k' = k then true else objHas rest k := rfl

theorem objGet?_cons (k' : String) (v' : JSValue) (rest : ObjMap) (k : String) :
    objGet? ((k', v') :: rest) k = if k' = k then some v' else objGet? rest k := rfl

theorem objSet_cons (k' : String) (v' : JSValue) (rest : ObjMap) (k : String) (v : JSValue) :
    objSet ((k', v') :: rest) k v
      = if k' = k then (k', v) :: rest else (k', v') :: objSet rest k v := rfl

theorem objHas_eq_isSome (m : ObjMap) (k : String) :
    objHas m k = (objGet? m k).isSome := by
  induction m with
  | nil => rfl
  | cons e rest ih =>
    obtain ⟨k', v'⟩ := e
    rw [objHas_cons, objGet?_cons]
    by_cases h : k' = k <;> simp [h, ih]

theorem objGet?_objSet_self (m : ObjMap) (k : String) (v : JSValue) :
    objGet? (objSet m k v) k = some v := by
  induction m with
  | nil => simp [objSet, objGet?]
  | cons e rest ih =>
    obtain ⟨k', v'⟩ := e
    rw [objSet_cons]
    by_cases h : k' = k <;> simp [h, objGet?_cons, ih]

theorem objKeys_cons (e : String × JSValue) (rest : ObjMap) :
    objKeys (e :: rest) = e.1 :: objKeys rest := rfl

theorem objGet?_objSet_ne (m : ObjMap) (k : String) (v : JSValue) (k₂ : String)
    (hne : k₂ ≠ k) : objGet? (objSet m k v) k₂ = objGet? m k₂ := by
  have hne' : ¬ (k = k₂) := fun h => hne h.symm
  induction m with
  | nil => simp [objSet, objGet?, hne']
  | cons e rest ih =>
    obtain ⟨k', v'⟩ := e
    rw [objSet_cons]
    by_cases h : k' = k
    · subst h
      simp [objGet?_cons, hne']
    · rw [if_neg h, objGet?_cons, objGet?_cons]
      by_cases h2 : k' = k₂
      · simp [h2]
      · simp [h2, ih]

theorem objHas_objSet_self (m : ObjMap) (k : String) (v : JSValue) :
    objHas (objSet m k v) k = true := by
  rw [objHas_eq_isSome, objGet?_objSet_self]
  rfl

theorem objKeys_objSet (m : ObjMap) (k : String) (v : JSValue) :
    objKeys (objSet m k v)
      = if objHas m k then objKeys m else objKeys m ++ [k] := by
  induction m with
  | nil => simp [objSet, objKeys, objHas]
  | cons e rest ih =>
    obtain ⟨k', v'⟩ := e
    rw [objSet_cons, objHas_cons]
    by_cases h : k' = k
    · subst h
      simp [objKeys]
    · simp only [if_neg h]
      by_cases h2 : objHas rest k
      · simp [h2, objKeys_cons, ih]
      · simp [h2, objKeys_cons, ih]

theorem mem_objKeys_objSet_self (m : ObjMap) (k : String) (v : JSValue) :
    k ∈ objKeys (objSet m k v) := by
  induction m with
  | nil => simp [objSet, objKeys]
  | cons e rest ih =>
    obtain ⟨k', v'⟩ := e
    rw [objSet_cons]
    by_cases h : k' = k <;> simp [h, objKeys] at ih ⊢
    exact Or.inr ih

theorem objDelete_cons (k' : String) (v' : JSValue) (rest : ObjMap) (k : String) :
    objDelete ((k', v') :: rest) k
      = if k' = k then objDelete rest k else (k', v') :: objDelete rest k := by
  rw [objDelete, List.filter_cons]
  by_cases h : k' = k <;> simp [h, objDelete]

theorem objHas_objDelete_self (m : ObjMap) (k : String) :
    objHas (objDelete m k) k = false := by
  induction m with
  | nil => rfl
  | cons e rest ih =>
    obtain ⟨k', v'⟩ := e
    rw [objDelete_cons]
    by_cases h : k' = k
    · simpa [h] using ih
    · simp [h, objHas_cons, ih]

theorem objGet?_objDelete_ne (m : ObjMap) (k : String) (k₂ : String) (hne : k₂ ≠ k) :
    objGet? (objDelete m k) k₂ = objGet? m k₂ := by
  have hne' : ¬ (k = k₂) := fun hh => hne hh.symm
  induction m with
  | nil => rfl
  | cons e rest ih =>
    obtain ⟨k', v'⟩ := e
    rw [objDelete_cons]
    by_cases h : k' = k
    · subst h
      simp [objGet?_cons, hne', ih]
    · rw [if_neg h, objGet?_cons, objGet?_cons]
      by_cases h2 : k' = k₂ <;> simp [h2, ih]

theorem objKeys_contains_eq (m : ObjMap) (k : String) :
    (objKeys m).contains k = objHas m k := by
  induction m with
  | nil => rfl
  | cons e rest ih =>
    obtain ⟨k', v'⟩ := e
    rw [objKeys_cons, objHas_cons, List.contains_cons]
    by_cases h : k' = k
    · simp [h]
    · have hkk : (k == k') = false := by
        simp only [beq_eq_false_iff_ne, ne_eq]
        exact fun hh => h hh.symm
      rw [if_neg h, hkk, Bool.false_or, ih]

theorem objGet?_foldl_objSet_of_not_mem (c : ObjMap) (b : ObjMap) (k : String)
    (h : k ∉ objKeys c) :
    objGet? (c.foldl (fun d e => objSet d e.1 e.2) b) k = objGet? b k := by
  induction c generalizing b with
  | nil => rfl
  | cons e rest ih =>
    obtain ⟨k', v'⟩ := e
    simp only [objKeys, List.map_cons, List.mem_cons, not_or] at h
    rw [List.foldl_cons, ih _ (by simpa [objKeys] using h.2)]
    exact objGet?_objSet_ne b k' v' k h.1

theorem objGet?_foldl_objSet_of_mem (c : ObjMap) (b : ObjMap) (k : String) (v : JSValue)
    (hnd : (objKeys c).Nodup) (h : objGet? c k = some v) :
    objGet? (c.foldl (fun d e => objSet d e.1 e.2) b) k = some v := by
  induction c generalizing b with
  | nil => simp [objGet?] at h
  | cons e rest ih =>
    obtain ⟨k', v'⟩ := e
    simp only [objKeys, List.map_cons, List.nodup_cons] at hnd
    rw [objGet?_cons] at h
    rw [List.foldl_cons]
    by_cases hk : k' = k
    · subst hk
      have hv : v' = v := by simpa using h
      subst hv
      rw [objGet?_foldl_objSet_of_not_mem rest _ k' (by simpa [objKeys] using hnd.1)]
      exact objGet?_objSet_self b k' v'
    · rw [if_neg hk] at h
      exact ih _ hnd.2 h

theorem objKeys_objSet_nodup (m : ObjMap) (k : String) (v : JSValue)
    (hnd : (objKeys m).Nodup) : (objKeys (objSet m k v)).Nodup := by
  rw [objKeys_objSet]
  by_cases h : objHas m k
  · simpa [h] using hnd
  · have hk : k ∉ objKeys m := by
      rw [← objKeys_contains_eq] at h
      simpa using h
    simp [h, List.nodup_append, hnd, hk]

/-! ## The pattern matcher -/

theorem jsStrIndexOf_eq_zero_iff (s q : String) :
    jsStrIndexOf s q = 0 ↔ s.toList.take q.length = q.toList := by
  unfold jsStrIndexOf
  rw [List.range_succ_eq_map]
  simp only [List.find?]
  rw [List.drop_zero]
  by_cases h0 : s.toList.take q.length = q.toList
  · rw [decide_eq_true h0]
    exact iff_of_true rfl h0
  · rw [decide_eq_false h0]
    cases hf : List.find? (fun i => decide ((s.toList.drop i).take q.length = q.toList))
        (List.map Nat.succ (List.range (s.length - q.length))) with
    | none =>
      constructor
      · intro hc
        exact absurd hc (by decide)
      · intro hh
        exact absurd hh h0
    | some i =>
      have hmem := List.mem_of_find?_eq_some hf
      rw [List.mem_map] at hmem
      obtain ⟨j, _, hj⟩ := hmem
      constructor
      · intro hc
        rw [← hj] at hc
        exact absurd (show ((j + 1 : Nat) : Int) = 0 from hc) (by omega)
      · intro hh
        exact absurd hh h0

theorem findIdx?_append_singleton {α : Type} (l : List α) (p : α → Bool)
    (h : ∀ x ∈ l, p x = false) (x : α) (hx : p x = true) :
    (l ++ [x]).findIdx? p = some l.length := by
  induction l with
  | nil => simp [hx]
  | cons a t ih =>
    have ha : p a = false := h a (by simp)
    rw [List.cons_append, List.findIdx?_cons, ha]
    rw [if_neg (by simp)]
    rw [List.findIdx?_succ, ih (fun y hy => h y (by simp [hy]))]
    rfl

theorem matchesPattern_of_findIdx?_none (s p : String)
    (h : p.toList.findIdx? (fun c => c = '*') = none) :
    matchesPattern s p = .ok (decide (s = p)) := by
  unfold matchesPattern
  rw [h]

theorem matchesPattern_of_findIdx?_some (s p : String) (i : Nat)
    (h : p.toList.findIdx? (fun c => c = '*') = some i) :
    matchesPattern s p
      = if i ≠ p.length - 1 then
          Except.error ("A match pattern can only contain an asterisk at the end: " ++ p)
        else
          Except.ok (decide (jsStrIndexOf s (String.mk (p.toList.take i)) = 0)) := by
  unfold matchesPattern
  rw [h]

theorem matchesPattern_no_asterisk (s p : String) (hp : '*' ∉ p.toList) :
    matchesPattern s p = .ok (decide (s = p)) := by
  refine matchesPattern_of_findIdx?_none s p ?_
  rw [List.findIdx?_eq_none_iff]
  intro x hx
  simp only [decide_eq_false_iff_not]
  intro hh
  exact hp (hh ▸ hx)

theorem matchesPattern_wildcard (s q : String) (hq : '*' ∉ q.toList) :
    matchesPattern s (q ++ "*") = .ok (decide (s.toList.take q.length = q.toList)) := by
  have htl : (q ++ "*").toList = q.toList ++ ['*'] := rfl
  have hfind : (q ++ "*").toList.findIdx? (fun c => c = '*') = some q.toList.length := by
    rw [htl]
    refine findIdx?_append_singleton q.toList _ ?_ '*' (by simp)
    intro x hx
    simp only [decide_eq_false_iff_not]
    intro hh
    exact hq (hh ▸ hx)
  rw [matchesPattern_of_findIdx?_some s (q ++ "*") q.toList.length hfind]
  have hlen : (q ++ "*").length = q.length + 1 := by
    rw [String.length_append]
    rfl
  have hql : q.toList.length = q.length := rfl
  rw [if_neg (by omega)]
  have hstem : String.mk ((q ++ "*").toList.take q.toList.length) = q := by
    rw [htl, List.take_left]
    rfl
  rw [hstem]
  exact congrArg Except.ok (decide_eq_decide.mpr (jsStrIndexOf_eq_zero_iff s q))

theorem matchesPattern_error_iff (s p : String) :
    (∃ e, matchesPattern s p = .error e) ↔ '*' ∈ p.toList.dropLast := by
  cases hf : p.toList.findIdx? (fun c => c = '*') with
  | none =>
    rw [matchesPattern_of_findIdx?_none s p hf]
    rw [List.findIdx?_eq_none_iff] at hf
    constructor
    · rintro ⟨e, he⟩
      exact absurd he (by simp)
    · intro hmem
      have hmem' : '*' ∈ p.toList := List.Sublist.mem hmem (List.dropLast_sublist p.toList)
      have := hf '*' hmem'
      simp at this
  | some i =>
    rw [matchesPattern_of_findIdx?_some s p i hf]
    rw [List.findIdx?_eq_some_iff_getElem] at hf
    obtain ⟨hlt, hpi, hmin⟩ := hf
    have hll : p.toList.length = p.length := rfl
    by_cases hi : i = p.length - 1
    · rw [if_neg (by omega)]
      constructor
      · rintro ⟨e, he⟩
        exact absurd he (by simp)
      · intro hmem
        rw [List.dropLast_eq_take, List.mem_iff_getElem] at hmem
        obtain ⟨j, hj, hje⟩ := hmem
        rw [List.length_take] at hj
        have hjlt : j < p.toList.length - 1 := lt_of_lt_of_le hj (min_le_left _ _)
        have hji : j < i := by omega
        have := hmin j hji
        rw [List.getElem_take] at hje
        exact absurd hje (by simpa using this)
    · rw [if_pos (by omega)]
      constructor
      · intro _
        have hilt : i < p.toList.length - 1 := by omega
        rw [List.dropLast_eq_take, List.mem_iff_getElem]
        refine ⟨i, ?_, ?_⟩
        · rw [List.length_take]
          exact lt_min hilt hlt
        · rw [List.getElem_take]
          simpa using hpi
      · intro _
        exact ⟨_, rfl⟩

/-- C8: `matchesPattern(value, pattern)` — with no asterisk in the pattern it
returns exact string equality; when the pattern is a stem followed by a final
asterisk it returns whether the value starts with the stem; and it throws the
invalid-pattern error exactly when the pattern has an asterisk at a non-final
position. -/
theorem matchesPattern_characterization (s p : String) :
    ('*' ∉ p.toList → matchesPattern s p = .ok (decide (s = p)))
    ∧ (∀ q : String, '*' ∉ q.toList → p = q ++ "*" →
        matchesPattern s p = .ok (decide (s.toList.take q.length = q.toList)))
    ∧ ((∃ e, matchesPattern s p = .error e) ↔ '*' ∈ p.toList.dropLast) :=
  ⟨matchesPattern_no_asterisk s p,
   fun q hq hpq => hpq ▸ matchesPattern_wildcard s q hq,
   matchesPattern_error_iff s p⟩

/-- Witness for C8: the characterization applied to the spec's round-trip
examples — `"ab*"` matches `"ab"`, `"abc"`, `"abcd"`; `"abc*"` does not match
`"ab"`; a non-final asterisk raises the error; no asterisk means equality. -/
theorem matchesPattern_characterization_witness :
    matchesPattern "ab" "ab*" = .ok true
    ∧ matchesPattern "abc" "ab*" = .ok true
    ∧ matchesPattern "abcd" "ab*" = .ok true
    ∧ matchesPattern "ab" "abc*" = .ok false
    ∧ (∃ e, matchesPattern "abc" "a*bc" = .error e)
    ∧ matchesPattern "ab" "ab" = .ok true := by
  refine ⟨?_, ?_, ?_, ?_, ?_, ?_⟩
  · rw [(matchesPattern_characterization "ab" "ab*").2.1 "ab" (by decide) (by decide)]
    rfl
  · rw [(matchesPattern_characterization "abc" "ab*").2.1 "ab" (by decide) (by decide)]
    rfl
  · rw [(matchesPattern_characterization "abcd" "ab*").2.1 "ab" (by decide) (by decide)]
    rfl
  · rw [(matchesPattern_characterization "ab" "abc*").2.1 "abc" (by decide) (by decide)]
    rfl
  · exact (matchesPattern_characterization "abc" "a*bc").2.2.mpr (by decide)
  · rw [(matchesPattern_characterization "ab" "ab").1 (by decide)]
    rfl

/-! ## MemoryStorage: stored null, record sizes, and the external-change bus -/

/-- C10: after `set(key, null)` on `MemoryStorage`, `has(key)` is `true` and
`keys()` includes `key`, while `get(key)` returns `null` — the same value
`get` returns for an absent key — so `has` and `get` disagree about the key's
presence and a reader cannot distinguish a stored `null` from an absent key
via `get`. -/
theorem memoryStorage_stored_null (L : Type) (selfId : Option String)
    (strf : Option Bool) (st : SharedStore L) (key : String) :
    MemoryStorage.has (MemoryStorage.set L selfId strf st key .null).1.data key = true
    ∧ key ∈ MemoryStorage.keys (MemoryStorage.set L selfId strf st key .null).1.data
    ∧ MemoryStorage.get strf (MemoryStorage.set L selfId strf st key .null).1.data key = .null
    ∧ (∀ d : ObjMap, MemoryStorage.has d key = false →
        MemoryStorage.get strf d key = .null) := by
  have hdata : (MemoryStorage.set L selfId strf st key .null).1.data
      = objSet st.data key .null := rfl
  refine ⟨?_, ?_, ?_, ?_⟩
  · rw [hdata]
    exact objHas_objSet_self st.data key .null
  · rw [hdata]
    exact mem_objKeys_objSet_self st.data key .null
  · rw [hdata]
    have h1 : MemoryStorage.has (objSet st.data key .null) key = true :=
      objHas_objSet_self _ _ _
    have h2 : objGet (objSet st.data key .null) key = .null := by
      rw [objGet, objGet?_objSet_self]
      rfl
    simp [MemoryStorage.get, h1, h2, jsonRoundTrip]
  · intro d hd
    simp [MemoryStorage.get, hd]

/-- Witness for C10 at a concrete input: storing `null` under `"k"` in an
empty store, and reading `"k"` from an empty store. -/
theorem memoryStorage_stored_null_witness :
    MemoryStorage.has
        (MemoryStorage.set Nat (some "1") none ⟨[], []⟩ "k" .null).1.data "k" = true
    ∧ MemoryStorage.get none ([] : ObjMap) "k" = .null := by
  have h := memoryStorage_stored_null Nat (some "1") none ⟨[], []⟩ "k"
  exact ⟨h.1, h.2.2.2 [] rfl⟩

/-- Counterexample for C7: for the stored value `null` the code skips the
serialized value length entirely — `getRecordSize` returns
`2 × key.length = 2`, not `2 × (key.length + length "null") = 10` as the
claimed formula demands. -/
theorem getRecordSize_counterexample :
    MemoryStorage.has [("k", JSValue.null)] "k" = true
    ∧ MemoryStorage.getRecordSize [("k", JSValue.null)] "k" = 2
    ∧ 2 * ("k".length + ((jsonStringify JSValue.null).getD "").length) = 10 :=
  ⟨rfl, rfl, rfl⟩

/-- C7 (amended): `MemoryStorage.getRecordSize` returns `0` for an absent key
and `2 × (key.length + serializedValue.length)` for a stored value that is
neither `null` nor `undefined`; for a stored `null`/`undefined` it returns
`2 × key.length` (the value's serialized length is skipped).
`CachedStorage.getRecordSize` returns the serialized length of the buffered
value alone when the key is buffered (no key length, no doubling) and
delegates to the backend otherwise. -/
theorem getRecordSize_characterization (d : ObjMap) (key : String) (cs : CachedStorage) :
    (MemoryStorage.has d key = false → MemoryStorage.getRecordSize d key = 0)
    ∧ (∀ v, objGet? d key = some v → v ≠ .null → v ≠ .jsUndefined →
        MemoryStorage.getRecordSize d key
          = 2 * (key.length + ((jsonStringify v).getD "").length))
    ∧ (∀ v, objGet? d key = some v → (v = .null ∨ v = .jsUndefined) →
        MemoryStorage.getRecordSize d key = 2 * key.length)
    ∧ (objHas cs.cache key = true →
        CachedStorage.getRecordSize cs key
          = ((jsonStringify (objGet cs.cache key)).getD "").length)
    ∧ (objHas cs.cache key = false →
        CachedStorage.getRecordSize cs key
          = MemoryStorage.getRecordSize cs.backendData key) := by
  refine ⟨?_, ?_, ?_, ?_, ?_⟩
  · intro hd
    simp [MemoryStorage.getRecordSize, hd]
  · intro v hv hvn hvu
    have hhas : MemoryStorage.has d key = true := by
      rw [MemoryStorage.has, objHas_eq_isSome, hv]
      rfl
    have hget : objGet d key = v := by
      rw [objGet, hv]
      rfl
    simp [MemoryStorage.getRecordSize, hhas, hget, hvn, hvu, Nat.mul_comm]
  · intro v hv hv2
    have hhas : MemoryStorage.has d key = true := by
      rw [MemoryStorage.has, objHas_eq_isSome, hv]
      rfl
    have hget : objGet d key = v := by
      rw [objGet, hv]
      rfl
    rcases hv2 with h | h <;>
      simp [MemoryStorage.getRecordSize, hhas, hget, h, Nat.mul_comm]
  · intro hc
    simp [CachedStorage.getRecordSize, hc]
  · intro hc
    simp [CachedStorage.getRecordSize, hc]

/-- Witness for C7 (amended) at concrete inputs: the backend size of
`("key", "value")` is `2 × (3 + 7) = 20` (the value the test suite checks),
and the buffered size of `"v"` under a buffered key is `3` — the length of
the JSON text alone. -/
theorem getRecordSize_characterization_witness :
    MemoryStorage.getRecordSize [("key", JSValue.str "value")] "key" = 20
    ∧ CachedStorage.getRecordSize
        { CachedStorage.init [] 1 none [] none true with
            cache := [("k", JSValue.str "v")] } "k" = 3 := by
  constructor
  · have h := (getRecordSize_characterization [("key", JSValue.str "value")] "key"
      (CachedStorage.init [] 1 none [] none true)).2.1 (JSValue.str "value")
      rfl (by decide) (by decide)
    rw [h]
    rfl
  · have h := (getRecordSize_characterization [] "k"
      { CachedStorage.init [] 1 none [] none true with
          cache := [("k", JSValue.str "v")] }).2.2.2.1 rfl
    rw [h]
    rfl

theorem mem_triggerExternalChangeListeners (L : Type) (selfId : Option String)
    (regs : List (Registration L)) (event : ChangeEvent) (q : L × ChangeEvent)
    (hq : q ∈ MemoryStorage.triggerExternalChangeListeners L selfId regs event) :
    ∃ r ∈ regs, r.listener = q.1 ∧ r.storageId ≠ none ∧ r.storageId ≠ selfId := by
  cases selfId with
  | none => simp [MemoryStorage.triggerExternalChangeListeners] at hq
  | some i =>
    simp only [MemoryStorage.triggerExternalChangeListeners] at hq
    rw [List.mem_map] at hq
    obtain ⟨r, hr, hqe⟩ := hq
    rw [List.mem_filter] at hr
    have hpred := hr.2
    cases hs : r.storageId with
    | none =>
      rw [hs] at hpred
      simp at hpred
    | some j =>
      rw [hs] at hpred
      simp only [decide_eq_true_eq] at hpred
      exact ⟨r, hr.1, by rw [← hqe], by simp [hs], by simp [hs, hpred]⟩

/-- C4: a `set` or `delete` through a shared-store facade only ever invokes
listener registrations whose identity is defined and differs from the
writer's identity — so no registration under the writer's own identity fires,
a registration made through an identity-less facade never fires, and a
facade with absent identity triggers no listeners at all. -/
theorem externalChangeBus_isolation (L : Type) (selfId : Option String)
    (strf : Option Bool) (st : SharedStore L) (key : String) (value : JSValue) :
    (∀ q ∈ (MemoryStorage.set L selfId strf st key value).2,
        ∃ r ∈ st.listeners, r.listener = q.1 ∧ r.storageId ≠ none ∧ r.storageId ≠ selfId)
    ∧ (∀ q ∈ (MemoryStorage.del L selfId strf st key).2,
        ∃ r ∈ st.listeners, r.listener = q.1 ∧ r.storageId ≠ none ∧ r.storageId ≠ selfId)
    ∧ (selfId = none →
        (MemoryStorage.set L selfId strf st key value).2 = []
        ∧ (MemoryStorage.del L selfId strf st key).2 = []) := by
  refine ⟨?_, ?_, ?_⟩
  · intro q hq
    exact mem_triggerExternalChangeListeners L selfId st.listeners _ q hq
  · intro q hq
    exact mem_triggerExternalChangeListeners L selfId st.listeners _ q hq
  · rintro rfl
    exact ⟨rfl, rfl⟩

/-- Witness for C4 at a concrete input: identity `"1"` writes while the only
registration belongs to identity `"2"`; the delivered invocation is traced
back to that registration. -/
theorem externalChangeBus_isolation_witness :
    ∃ r ∈ [(⟨some "2", 7⟩ : Registration Nat)],
      r.listener = 7 ∧ r.storageId ≠ none ∧ r.storageId ≠ some "1" := by
  have h := (externalChangeBus_isolation Nat (some "1") none
      ⟨[], [⟨some "2", 7⟩]⟩ "k" (JSValue.str "v")).1
  exact h (7, ⟨"k", JSValue.str "v", JSValue.null⟩) (by decide)

/-- Counterexample for C6: the unsubscribe closure filters by listener
reference only (`_.listener !== listener`).  Registering the same listener
function `7` under identities `"1"` and `"2"` and then unsubscribing the
first registration removes *both*: the registry is empty and a subsequent
write by a third identity notifies nobody, contradicting the claim that the
same listener registered under a different identity still fires. -/
theorem unsubscribe_removes_same_listener_everywhere :
    (MemoryStorage.unsubscribe Nat
        (MemoryStorage.onExternalChange Nat (some "2")
          (MemoryStorage.onExternalChange Nat (some "1") ⟨[], []⟩ 7) 7) 7).listeners = []
    ∧ (MemoryStorage.set Nat (some "3") none
        (MemoryStorage.unsubscribe Nat
          (MemoryStorage.onExternalChange Nat (some "2")
            (MemoryStorage.onExternalChange Nat (some "1") ⟨[], []⟩ 7) 7) 7)
        "k" (JSValue.str "v")).2 = [] := by
  decide

/-- C6 (amended): `onExternalChange` appends the `(ownIdentity, listener)`
pair to the shared registry; the returned unsubscribe function removes every
registration whose listener function equals the given one — under any
identity — while registrations with a different listener function survive
and still fire on an eligible external write. -/
theorem onExternalChange_unsubscribe_spec (L : Type) [DecidableEq L]
    (selfId writerId : Option String) (strf : Option Bool)
    (st : SharedStore L) (l : L) (key : String) (value : JSValue) :
    (MemoryStorage.onExternalChange L selfId st l).listeners
        = st.listeners ++ [⟨selfId, l⟩]
    ∧ (∀ r : Registration L,
        r ∈ (MemoryStorage.unsubscribe L st l).listeners
          ↔ r ∈ st.listeners ∧ r.listener ≠ l)
    ∧ (∀ (r : Registration L) (i j : String), r ∈ st.listeners → r.listener ≠ l →
        writerId = some i → r.storageId = some j → j ≠ i →
        (r.listener, (⟨key, value, MemoryStorage.get strf st.data key⟩ : ChangeEvent))
          ∈ (MemoryStorage.set L writerId strf (MemoryStorage.unsubscribe L st l) key value).2) := by
  refine ⟨rfl, ?_, ?_⟩
  · intro r
    rw [MemoryStorage.unsubscribe]
    simp [List.mem_filter, bne_iff_ne]
  · intro r i j hr hrl hw hs hji
    subst hw
    have hmem : r ∈ (MemoryStorage.unsubscribe L st l).listeners := by
      rw [MemoryStorage.unsubscribe]
      rw [List.mem_filter]
      exact ⟨hr, by simp [bne_iff_ne, hrl]⟩
    have hpred : (match r.storageId with
        | none => false
        | some j' => decide (j' ≠ i)) = true := by
      rw [hs]
      simpa using hji
    show (r.listener, (⟨key, value, MemoryStorage.get strf st.data key⟩ : ChangeEvent))
        ∈ MemoryStorage.triggerExternalChangeListeners L (some i)
            (MemoryStorage.unsubscribe L st l).listeners
            ⟨key, value, MemoryStorage.get strf st.data key⟩
    simp only [MemoryStorage.triggerExternalChangeListeners]
    rw [List.mem_map]
    exact ⟨r, List.mem_filter.mpr ⟨hmem, hpred⟩, rfl⟩

/-- Witness for C6 (amended) at a concrete input: after unsubscribing
listener `8`, the surviving registration of listener `7` under identity
`"2"` still fires on a write by identity `"1"`. -/
theorem onExternalChange_unsubscribe_spec_witness :
    ((7 : Nat), (⟨"k", JSValue.str "v", JSValue.null⟩ : ChangeEvent))
      ∈ (MemoryStorage.set Nat (some "1") none
          (MemoryStorage.unsubscribe Nat ⟨[], [⟨some "2", 7⟩, ⟨some "2", 8⟩]⟩ 8)
          "k" (JSValue.str "v")).2 := by
  have h := (onExternalChange_unsubscribe_spec Nat (some "2") (some "1") none
      ⟨[], [⟨some "2", 7⟩, ⟨some "2", 8⟩]⟩ 8 "k" (JSValue.str "v")).2.2
  exact h ⟨some "2", 7⟩ "1" "2" (by decide) (by decide) rfl rfl (by decide)

/-! ## CachedStorage: flush, set, reconciliation, timer invariant -/

theorem flush_cache_nil (cs : CachedStorage) : cs.flush.cache = [] := by
  cases h : cs.flushTimer <;> simp [CachedStorage.flush, h]

theorem flush_backendData (cs : CachedStorage) :
    cs.flush.backendData
      = cs.cache.foldl (fun d e => objSet d e.1 e.2) cs.backendData := by
  cases h : cs.flushTimer <;> simp [CachedStorage.flush, h]

theorem flush_flushTimer (cs : CachedStorage) : cs.flush.flushTimer = none := by
  cases h : cs.flushTimer <;> simp [CachedStorage.flush, h]

theorem scheduleFlush_cache (cs : CachedStorage) :
    cs.scheduleFlush.cache = cs.cache := by
  cases h : cs.flushTimer <;> simp [CachedStorage.scheduleFlush, h]

theorem scheduleFlush_backendData (cs : CachedStorage) :
    cs.scheduleFlush.backendData = cs.backendData := by
  cases h : cs.flushTimer <;> simp [CachedStorage.scheduleFlush, h]

/-- C9: `flush()` is idempotent — a second `flush` right after a first one
leaves the backend state unchanged; and flushing an empty buffer performs no
backend write, its only effects being the flush-timestamp update and the
cancellation and clearing of any armed flush timer. -/
theorem flush_idempotent (cs : CachedStorage) :
    cs.flush.flush.backendData = cs.flush.backendData
    ∧ (cs.cache = [] →
        cs.flush.backendData = cs.backendData
        ∧ cs.flush = { cs with
            cache := []
            previouslyFlushedAt := cs.timer.time
            flushTimer := none
            timer := match cs.flushTimer with
                     | some h => cs.timer.cancel h
                     | none => cs.timer }) := by
  constructor
  · rw [flush_backendData cs.flush, flush_cache_nil]
    rfl
  · intro h
    constructor
    · rw [flush_backendData, h]
      rfl
    · cases hf : cs.flushTimer <;> simp [CachedStorage.flush, hf, h]

/-- Witness for C9 at a concrete input: flushing an empty buffer over a
non-empty backend leaves the backend untouched. -/
theorem flush_idempotent_witness :
    (CachedStorage.init [] 5 none [("a", JSValue.str "x")] none true).flush.backendData
      = [("a", JSValue.str "x")] := by
  have h :=
    (flush_idempotent (CachedStorage.init [] 5 none [("a", JSValue.str "x")] none true)).2 rfl
  exact h.1.trans rfl

/-- Counterexample for C2: with `"k"` buffered in the cache,
`set("k", undefined)` delegates to backend `delete` but leaves the buffered
entry in place, so `has("k")` is still `true` — not `false` as the claimed
equivalence with `delete("k")` demands.  And `MemoryStorage.set` never
deletes: storing the absence marker (`null`) makes `has` report `true`. -/
theorem set_absence_marker_counterexample :
    (CachedStorage.set
        { CachedStorage.init [] 1 none [] none true with
            cache := [("k", JSValue.str "v")] } "k" JSValue.jsUndefined).map
      (fun cs' => cs'.has "k") = .ok true
    ∧ MemoryStorage.has
        (MemoryStorage.set Nat (some "1") none ⟨[], []⟩ "k" JSValue.null).1.data "k"
        = true :=
  ⟨rfl, rfl⟩

/-- C2 (amended): `CachedStorage.set(key, undefined)` delegates to backend
`delete`.  When `key` is not buffered this coincides with
`CachedStorage.delete(key)`, and afterwards `has(key)` is `false` and
`get(key)` returns the absence value `null`; when `key` is buffered, the
buffered entry survives, so `has(key)` stays `true`.  `MemoryStorage.set`
never deletes: after `set(key, v)` for any value `v` (including an absence
marker) `has(key)` is `true`. -/
theorem set_absence_marker_spec (cs : CachedStorage) (key : String) :
    CachedStorage.set cs key .jsUndefined
        = .ok { cs with backendData := objDelete cs.backendData key }
    ∧ (objHas cs.cache key = false →
        CachedStorage.set cs key .jsUndefined = .ok (cs.del key)
        ∧ CachedStorage.has
            { cs with backendData := objDelete cs.backendData key } key = false
        ∧ CachedStorage.get
            { cs with backendData := objDelete cs.backendData key } key = .null)
    ∧ (objHas cs.cache key = true →
        CachedStorage.has
          { cs with backendData := objDelete cs.backendData key } key = true)
    ∧ (∀ (L : Type) (selfId : Option String) (strf : Option Bool)
        (st : SharedStore L) (v : JSValue),
        MemoryStorage.has (MemoryStorage.set L selfId strf st key v).1.data key = true) := by
  refine ⟨rfl, ?_, ?_, ?_⟩
  · intro h
    refine ⟨?_, ?_, ?_⟩
    · simp [CachedStorage.set, CachedStorage.del, h]
    · simp [CachedStorage.has, h, MemoryStorage.has, objHas_objDelete_self]
    · simp [CachedStorage.get, h, MemoryStorage.get, MemoryStorage.has,
        objHas_objDelete_self]
  · intro h
    simp [CachedStorage.has, h]
  · intro L selfId strf st v
    exact objHas_objSet_self st.data key v

/-- Witness for C2 (amended) at concrete inputs: deleting through
`set(key, undefined)` with nothing buffered leaves the key absent, while
`MemoryStorage.set` of any value makes the key present. -/
theorem set_absence_marker_spec_witness :
    CachedStorage.has
        { CachedStorage.init [] 1 none [("k", JSValue.str "w")] none true with
            backendData := objDelete [("k", JSValue.str "w")] "k" } "k" = false
    ∧ MemoryStorage.has
        (MemoryStorage.set Nat none none ⟨[], []⟩ "q" (JSValue.str "z")).1.data "q"
        = true := by
  constructor
  · exact ((set_absence_marker_spec
      (CachedStorage.init [] 1 none [("k", JSValue.str "w")] none true) "k").2.1 rfl).2.1
  · exact (set_absence_marker_spec
      (CachedStorage.init [] 1 none [] none true) "q").2.2.2 Nat none none ⟨[], []⟩
      (JSValue.str "z")

/-- C3: cache eligibility of `set(key, value)` for `value` other than the
absence marker.  With the tab inactive, any write — cache-pattern match or
not — goes through to the backend synchronously, leaving the buffer
untouched.  With the tab active and the key matching a registered pattern,
the write goes only into the buffer: the backend is unchanged, `get`
immediately returns the new value, and after `flush()` the backend holds the
written value. -/
theorem set_cache_eligibility (cs : CachedStorage) (key : String) (value : JSValue)
    (hv : value ≠ .jsUndefined) :
    (cs.active = false →
        CachedStorage.set cs key value
          = .ok { cs with backendData := objSet cs.backendData key value })
    ∧ (cs.active = true →
        CachedStorage.anyKeyMatches key cs.cachedKeys = .ok true →
        CachedStorage.set cs key value
            = .ok (CachedStorage.scheduleFlush { cs with cache := objSet cs.cache key value })
        ∧ (CachedStorage.scheduleFlush
            { cs with cache := objSet cs.cache key value }).backendData = cs.backendData
        ∧ CachedStorage.get (CachedStorage.scheduleFlush
            { cs with cache := objSet cs.cache key value }) key = value
        ∧ ((objKeys cs.cache).Nodup →
            objGet? (CachedStorage.scheduleFlush
                { cs with cache := objSet cs.cache key value }).flush.backendData key
              = some value)) := by
  constructor
  · intro h
    simp [CachedStorage.set, hv, CachedStorage.shouldCache, h]
  · intro ha hm
    have hsc : CachedStorage.shouldCache cs key = .ok true := by
      rw [CachedStorage.shouldCache, if_neg (by simp [ha]), hm]
    refine ⟨?_, ?_, ?_, ?_⟩
    · simp [CachedStorage.set, hv, hsc]
    · rw [scheduleFlush_backendData]
    · have hc : (CachedStorage.scheduleFlush
          { cs with cache := objSet cs.cache key value }).cache
          = objSet cs.cache key value := scheduleFlush_cache _
      simp [CachedStorage.get, hc, objHas_objSet_self, objGet, objGet?_objSet_self]
    · intro hnd
      rw [flush_backendData, scheduleFlush_cache, scheduleFlush_backendData]
      exact objGet?_foldl_objSet_of_mem _ _ _ _
        (objKeys_objSet_nodup _ _ _ hnd) (objGet?_objSet_self cs.cache key value)

/-- Witness for C3 at a concrete input, mirroring the test suite's scenario:
pattern `"cached-*"`, tab active, `set("cached-key", "Two")` buffers the
write, leaves the backend at `"One"`, reads back `"Two"`, and flushing
pushes `"Two"` into the backend. -/
theorem set_cache_eligibility_witness :
    ∃ cs', CachedStorage.set
        (CachedStorage.init ["cached-*"] 60000 none
          [("cached-key", JSValue.str "One")] none true)
        "cached-key" (JSValue.str "Two") = .ok cs'
      ∧ cs'.backendData = [("cached-key", JSValue.str "One")]
      ∧ CachedStorage.get cs' "cached-key" = JSValue.str "Two"
      ∧ objGet? cs'.flush.backendData "cached-key" = some (JSValue.str "Two") := by
  have h := (set_cache_eligibility
      (CachedStorage.init ["cached-*"] 60000 none
        [("cached-key", JSValue.str "One")] none true)
      "cached-key" (JSValue.str "Two") (by decide)).2 rfl rfl
  refine ⟨_, h.1, ?_, h.2.2.1, h.2.2.2 (by decide)⟩
  rw [h.2.1]
  rfl

/-- C1: external-change reconciliation while the instance is started.  A
change `{key, value}` reported from another identity is ignored when `key`
is not buffered; an external delete (`null`) discards the buffered entry
without writing; with a merge function configured, the buffer entry becomes
`merge(key, bufferedValue, externalValue)` and a synchronous flush puts the
merged value in the backend (and empties the buffer) before the handler
returns; without a merge function the buffered entry is discarded. -/
theorem external_change_reconciliation (cs : CachedStorage) (key : String)
    (value : JSValue) (hs : cs.isStarted = true) :
    (objHas cs.cache key = false →
        CachedStorage.step cs (.extChangeOp key value) = cs)
    ∧ (objHas cs.cache key = true → value = .null →
        CachedStorage.step cs (.extChangeOp key value)
          = { cs with cache := objDelete cs.cache key })
    ∧ (∀ f, objHas cs.cache key = true → value ≠ .null → cs.merge = some f →
        CachedStorage.step cs (.extChangeOp key value)
            = CachedStorage.flush
                { cs with cache := objSet cs.cache key (f key (objGet cs.cache key) value) }
        ∧ ((objKeys cs.cache).Nodup →
            objGet? (CachedStorage.step cs (.extChangeOp key value)).backendData key
              = some (f key (objGet cs.cache key) value))
        ∧ (CachedStorage.step cs (.extChangeOp key value)).cache = [])
    ∧ (objHas cs.cache key = true → value ≠ .null → cs.merge = none →
        CachedStorage.step cs (.extChangeOp key value)
          = { cs with cache := objDelete cs.cache key }) := by
  have hstep : CachedStorage.step cs (.extChangeOp key value)
      = cs.handleExternalChange key value := by
    simp [CachedStorage.step, hs]
  refine ⟨?_, ?_, ?_, ?_⟩
  · intro h
    have hc : (objKeys cs.cache).contains key = false := by
      rw [objKeys_contains_eq]
      exact h
    rw [hstep]
    simp only [CachedStorage.handleExternalChange, hc, Bool.false_eq_true, if_false]
  · intro h hv
    have hc : (objKeys cs.cache).contains key = true := by
      rw [objKeys_contains_eq]
      exact h
    rw [hstep]
    simp only [CachedStorage.handleExternalChange, hc, hv, if_true]
  · intro f h hv hm
    have hc : (objKeys cs.cache).contains key = true := by
      rw [objKeys_contains_eq]
      exact h
    have heq : CachedStorage.step cs (.extChangeOp key value)
        = CachedStorage.flush
            { cs with cache := objSet cs.cache key (f key (objGet cs.cache key) value) } := by
      rw [hstep]
      simp only [CachedStorage.handleExternalChange, hc, if_true, if_neg hv, hm]
    refine ⟨heq, ?_, ?_⟩
    · intro hnd
      rw [heq, flush_backendData]
      exact objGet?_foldl_objSet_of_mem _ _ _ _
        (objKeys_objSet_nodup _ _ _ hnd) (objGet?_objSet_self _ _ _)
    · rw [heq]
      exact flush_cache_nil _
  · intro h hv hm
    have hc : (objKeys cs.cache).contains key = true := by
      rw [objKeys_contains_eq]
      exact h
    rw [hstep]
    simp only [CachedStorage.handleExternalChange, hc, if_true, if_neg hv, hm]

/-- Witness for C1 at a concrete input, mirroring the test suite's merge
scenario: `"cached-key"` buffered as `"One"`, external write `"Two"`, the
concatenating merge makes the backend hold `"OneTwo"` and empties the
buffer before the handler returns. -/
theorem external_change_reconciliation_witness :
    objGet? (CachedStorage.step
        { CachedStorage.init ["cached-*"] 60000 (some testMergeFn)
            [("cached-key", JSValue.str "Zero")] none true with
            cache := [("cached-key", JSValue.str "One")], isStarted := true }
        (.extChangeOp "cached-key" (JSValue.str "Two"))).backendData "cached-key"
      = some (JSValue.str "OneTwo")
    ∧ (CachedStorage.step
        { CachedStorage.init ["cached-*"] 60000 (some testMergeFn)
            [("cached-key", JSValue.str "Zero")] none true with
            cache := [("cached-key", JSValue.str "One")], isStarted := true }
        (.extChangeOp "cached-key" (JSValue.str "Two"))).cache = [] := by
  have h := (external_change_reconciliation
      { CachedStorage.init ["cached-*"] 60000 (some testMergeFn)
          [("cached-key", JSValue.str "Zero")] none true with
          cache := [("cached-key", JSValue.str "One")], isStarted := true }
      "cached-key" (JSValue.str "Two") rfl).2.2.1 testMergeFn rfl (by decide) rfl
  have hnd : (objKeys [("cached-key", JSValue.str "One")]).Nodup := by decide
  have hb := h.2.1 hnd
  refine ⟨?_, h.2.2⟩
  rw [hb]
  rfl

theorem timerCoherent_scheduleFlush (cs : CachedStorage) (h : cs.timerCoherent) :
    cs.scheduleFlush.timerCoherent := by
  cases hf : cs.flushTimer with
  | some k => simpa [CachedStorage.scheduleFlush, hf] using h
  | none =>
    have ha : cs.timer.armed = [] := by
      simpa [CachedStorage.timerCoherent, hf] using h
    simp [CachedStorage.scheduleFlush, hf, TimerState.schedule,
      CachedStorage.timerCoherent, ha]

theorem timerCoherent_flush (cs : CachedStorage) (h : cs.timerCoherent) :
    cs.flush.timerCoherent := by
  cases hf : cs.flushTimer with
  | none =>
    have ha : cs.timer.armed = [] := by
      simpa [CachedStorage.timerCoherent, hf] using h
    simp [CachedStorage.flush, hf, CachedStorage.timerCoherent, ha]
  | some k =>
    obtain ⟨t, ha⟩ : ∃ t, cs.timer.armed = [(k, t)] := by
      simpa [CachedStorage.timerCoherent, hf] using h
    simp [CachedStorage.flush, hf, CachedStorage.timerCoherent, TimerState.cancel, ha]

theorem timerCoherent_fireTimer (cs : CachedStorage) (h : cs.timerCoherent) :
    cs.fireTimer.timerCoherent := by
  cases hf : cs.flushTimer with
  | none => simpa [CachedStorage.fireTimer, hf] using h
  | some k =>
    obtain ⟨t, ha⟩ : ∃ t, cs.timer.armed = [(k, t)] := by
      simpa [CachedStorage.timerCoherent, hf] using h
    simp [CachedStorage.fireTimer, hf, CachedStorage.flush, CachedStorage.timerCoherent,
      TimerState.cancel, ha]

theorem timerCoherent_set (cs : CachedStorage) (key : String) (value : JSValue)
    (cs' : CachedStorage) (hok : CachedStorage.set cs key value = .ok cs')
    (h : cs.timerCoherent) : cs'.timerCoherent := by
  by_cases hv : value = .jsUndefined
  · rw [CachedStorage.set, if_pos hv] at hok
    simp only [Except.ok.injEq] at hok
    rw [← hok]
    exact h
  · rw [CachedStorage.set, if_neg hv] at hok
    cases hsc : CachedStorage.shouldCache cs key with
    | error e =>
      rw [hsc] at hok
      simp at hok
    | ok b =>
      rw [hsc] at hok
      cases b with
      | true =>
        simp only [Except.ok.injEq] at hok
        rw [← hok]
        exact timerCoherent_scheduleFlush _ h
      | false =>
        simp only [Except.ok.injEq] at hok
        rw [← hok]
        exact h

theorem timerCoherent_del (cs : CachedStorage) (key : String)
    (h : cs.timerCoherent) : (cs.del key).timerCoherent := by
  rw [CachedStorage.del]
  by_cases hc : objHas cs.cache key <;> simp only [hc, if_pos, if_neg, if_true, if_false] <;>
    exact h

theorem timerCoherent_handleExternalChange (cs : CachedStorage) (key : String)
    (value : JSValue) (h : cs.timerCoherent) :
    (cs.handleExternalChange key value).timerCoherent := by
  rw [CachedStorage.handleExternalChange]
  by_cases hc : (objKeys cs.cache).contains key
  · simp only [hc, if_true]
    by_cases hv : value = .null
    · simp only [if_pos hv]
      exact h
    · simp only [if_neg hv]
      cases hm : cs.merge with
      | some f => exact timerCoherent_flush _ h
      | none => exact h
  · simp only [hc, if_false]
    exact h

theorem timerCoherent_step (cs : CachedStorage) (op : CachedStorage.Op)
    (h : cs.timerCoherent) : (cs.step op).timerCoherent := by
  cases op with
  | setOp key value =>
    simp only [CachedStorage.step]
    cases hok : CachedStorage.set cs key value with
    | ok cs' => exact timerCoherent_set cs key value cs' hok h
    | error e => exact h
  | deleteOp key => exact timerCoherent_del cs key h
  | flushOp => exact timerCoherent_flush cs h
  | fireTimerOp => exact timerCoherent_fireTimer cs h
  | extChangeOp key value =>
    simp only [CachedStorage.step]
    by_cases hs : cs.isStarted
    · rw [if_pos hs]
      exact timerCoherent_handleExternalChange cs key value h
    · rw [if_neg hs]
      exact h
  | cacheKeyOp p => exact h
  | setActiveOp b => exact h
  | tabInactiveOp => exact timerCoherent_flush { cs with active := false } h
  | startOp =>
    simp only [CachedStorage.step]
    by_cases hs : cs.isStarted
    · rw [if_pos hs]
      exact h
    · rw [if_neg hs]
      exact h
  | stopOp =>
    simp only [CachedStorage.step]
    by_cases hs : cs.isStarted
    · rw [if_pos hs]
      exact timerCoherent_flush cs h
    · rw [if_neg hs]
      exact h

theorem timerCoherent_run (cs : CachedStorage) (ops : List CachedStorage.Op)
    (h : cs.timerCoherent) : (cs.run ops).timerCoherent := by
  induction ops generalizing cs with
  | nil => exact h
  | cons op rest ih => exact ih _ (timerCoherent_step cs op h)

theorem timer_facts_of_coherent (m : CachedStorage) (hco : m.timerCoherent) :
    m.timer.armed.length ≤ 1
    ∧ (∀ h, m.flushTimer = some h →
        m.timer.armed.map (fun e => e.1) = [h] ∧ m.scheduleFlush = m)
    ∧ (m.flushTimer = none →
        m.timer.armed = []
        ∧ m.scheduleFlush.flushTimer = some m.timer.nextHandle
        ∧ m.scheduleFlush.timer.armed
            = [(m.timer.nextHandle, m.timer.time + m.flushDelay)])
    ∧ m.flush.flushTimer = none ∧ m.flush.timer.armed = [] := by
  refine ⟨?_, ?_, ?_, flush_flushTimer m, ?_⟩
  · cases hf : m.flushTimer with
    | none =>
      have ha : m.timer.armed = [] := by
        simpa [CachedStorage.timerCoherent, hf] using hco
      simp [ha]
    | some k =>
      obtain ⟨t, ha⟩ : ∃ t, m.timer.armed = [(k, t)] := by
        simpa [CachedStorage.timerCoherent, hf] using hco
      simp [ha]
  · intro h hf
    obtain ⟨t, ha⟩ : ∃ t, m.timer.armed = [(h, t)] := by
      simpa [CachedStorage.timerCoherent, hf] using hco
    exact ⟨by simp [ha], by simp [CachedStorage.scheduleFlush, hf]⟩
  · intro hf
    have ha : m.timer.armed = [] := by
      simpa [CachedStorage.timerCoherent, hf] using hco
    refine ⟨ha, ?_, ?_⟩
    · simp [CachedStorage.scheduleFlush, hf, TimerState.schedule]
    · simp [CachedStorage.scheduleFlush, hf, TimerState.schedule, ha]
  · cases hf : m.flushTimer with
    | none =>
      have ha : m.timer.armed = [] := by
        simpa [CachedStorage.timerCoherent, hf] using hco
      simp [CachedStorage.flush, hf, ha]
    | some k =>
      obtain ⟨t, ha⟩ : ∃ t, m.timer.armed = [(k, t)] := by
        simpa [CachedStorage.timerCoherent, hf] using hco
      simp [CachedStorage.flush, hf, TimerState.cancel, ha]

/-- C5: in every state reachable from a freshly constructed instance, at most
one flush timer is armed — the timer collaborator holds exactly the handle
`flushTimer` records; arming from the unarmed state schedules exactly one
fresh handle with the configured delay (the first buffered write since the
last flush); `scheduleFlush` is an identity when a timer is already armed (a
second buffered write neither arms a second timer nor resets the delay); and
`flush()` cancels and clears any armed timer. -/
theorem flush_timer_at_most_one (cachedKeys : List String) (flushDelay : Nat)
    (mergeFn : Option (String → JSValue → JSValue → JSValue)) (backendData : ObjMap)
    (backendStringify : Option Bool) (active : Bool) (ops : List CachedStorage.Op) :
    ((CachedStorage.init cachedKeys flushDelay mergeFn backendData backendStringify
        active).run ops).timer.armed.length ≤ 1
    ∧ (∀ h, ((CachedStorage.init cachedKeys flushDelay mergeFn backendData
          backendStringify active).run ops).flushTimer = some h →
        ((CachedStorage.init cachedKeys flushDelay mergeFn backendData
          backendStringify active).run ops).timer.armed.map (fun e => e.1) = [h]
        ∧ CachedStorage.scheduleFlush ((CachedStorage.init cachedKeys flushDelay mergeFn
            backendData backendStringify active).run ops)
          = (CachedStorage.init cachedKeys flushDelay mergeFn backendData
              backendStringify active).run ops)
    ∧ (((CachedStorage.init cachedKeys flushDelay mergeFn backendData
          backendStringify active).run ops).flushTimer = none →
        ((CachedStorage.init cachedKeys flushDelay mergeFn backendData
          backendStringify active).run ops).timer.armed = []
        ∧ (CachedStorage.scheduleFlush ((CachedStorage.init cachedKeys flushDelay mergeFn
            backendData backendStringify active).run ops)).flushTimer
          = some ((CachedStorage.init cachedKeys flushDelay mergeFn backendData
              backendStringify active).run ops).timer.nextHandle
        ∧ (CachedStorage.scheduleFlush ((CachedStorage.init cachedKeys flushDelay mergeFn
            backendData backendStringify active).run ops)).timer.armed
          = [(((CachedStorage.init cachedKeys flushDelay mergeFn backendData
                backendStringify active).run ops).timer.nextHandle,
              ((CachedStorage.init cachedKeys flushDelay mergeFn backendData
                backendStringify active).run ops).timer.time
                + ((CachedStorage.init cachedKeys flushDelay mergeFn backendData
                    backendStringify active).run ops).flushDelay)])
    ∧ (((CachedStorage.init cachedKeys flushDelay mergeFn backendData
          backendStringify active).run ops).flush.flushTimer = none
        ∧ ((CachedStorage.init cachedKeys flushDelay mergeFn backendData
            backendStringify active).run ops).flush.timer.armed = []) := by
  have hco := timerCoherent_run
    (CachedStorage.init cachedKeys flushDelay mergeFn backendData backendStringify active)
    ops rfl
  have h := timer_facts_of_coherent _ hco
  exact ⟨h.1, h.2.1, h.2.2.1, h.2.2.2.1, h.2.2.2.2⟩

/-- Witness for C5 at a concrete input: registering pattern `"k"`, activating
the tab, and writing `"k"` buffers the write and arms exactly the timer
handle `0`; a repeated `scheduleFlush` then changes nothing. -/
theorem flush_timer_at_most_one_witness :
    ((CachedStorage.init [] 5 none [] none false).run
        [.cacheKeyOp "k", .setActiveOp true, .setOp "k" (JSValue.str "v")]).timer.armed.map
        (fun e => e.1) = [0]
    ∧ CachedStorage.scheduleFlush ((CachedStorage.init [] 5 none [] none false).run
        [.cacheKeyOp "k", .setActiveOp true, .setOp "k" (JSValue.str "v")])
      = (CachedStorage.init [] 5 none [] none false).run
          [.cacheKeyOp "k", .setActiveOp true, .setOp "k" (JSValue.str "v")] :=
  (flush_timer_at_most_one [] 5 none [] none false
    [.cacheKeyOp "k", .setActiveOp true, .setOp "k" (JSValue.str "v")]).2.1 0 rfl

end WebBrowserStorage
